import Mathlib

/-!
Verification of the Masterblog API backend.

Shallow embedding of `src/backend/blogmanager.py`, `src/backend/backend_app.py`
and `src/backend/storage/storage.py`. Python dicts are modelled as association
lists with unique keys (`Post`); JSON values appearing in posts are strings or
integers (`JVal`). The mutable storage (a JSON file) is threaded explicitly:
each manager operation receives the loaded post list and returns the list that
`save_posts` would write back. `datetime.now(...)` is passed in as an explicit
`now : String` parameter.
-/

namespace Masterblog

/-- A JSON value stored in a post dict: the code only ever stores strings and
integers (`id` is an int, every other field a string). -/
inductive JVal where
  | vStr (s : String)
  | vInt (n : Int)
deriving DecidableEq

/-- A Python dict, modelled as an association list with unique keys in
insertion order (Python 3.7+ dicts preserve insertion order). -/
abbrev Post := List (String × JVal)

/-- Python `d[key]` / `d.get(key)`: first binding of `key`. -/
def getKey : Post → String → Option JVal
  | [], _ => none
  | (k, w) :: rest, key => if k = key then some w else getKey rest key

/-- Python `d[key] = v`: overwrite in place if the key exists (keeping its
position), otherwise append at the end. -/
def setKey : Post → String → JVal → Post
  | [], key, v => [(key, v)]
  | (k, w) :: rest, key, v =>
      if k = key then (k, v) :: rest else (k, w) :: setKey rest key v

/-- Python truthiness of `data.get(field)`: `None`, `""` and `0` are falsy. -/
def truthy : Option JVal → Bool
  | none => false
  | some (.vStr s) => !s.isEmpty
  | some (.vInt n) => n != 0

/-- Python truthiness of an optional string (`if sort:`). -/
def strTruthy : Option String → Bool
  | none => false
  | some s => !s.isEmpty

/-- Python `str(post.get(field, ''))`. -/
def pyStr : Option JVal → String
  | none => ""
  | some (.vStr s) => s
  | some (.vInt n) => toString n

/-- `BlogManager.REQUIRED_FIELDS` (a Python set; modelled as a list, with a
fixed enumeration order used only for error-message text). -/
def REQUIRED_FIELDS : List String := ["title", "content", "author"]

/-- `BlogManager.VALID_SORT_FIELDS`. -/
def VALID_SORT_FIELDS : List String :=
  ["title", "content", "author", "created", "updated"]

/-- `BlogManager.VALID_DIRECTIONS`. -/
def VALID_DIRECTIONS : List String := ["asc", "desc"]

/-- The list comprehension in `BlogManager.validate_data`:
`[field for field in REQUIRED_FIELDS if not data.get(field)]`. -/
def missing_fields (data : Post) : List String :=
  REQUIRED_FIELDS.filter (fun f => !truthy (getKey data f))

/-- `BlogManager.validate_data`. -/
def validate_data (data : Post) : Option String :=
  let missing := missing_fields data
  if missing.isEmpty then none
  else some ("Missing fields: " ++ String.intercalate ", " missing)

/-- Left fold computing `max` of a list of ints with accumulator `x`,
mirroring Python `max(...)` over a non-empty generator. -/
def listMax (x : Int) : List Int → Int
  | [] => x
  | y :: ys => listMax (max x y) ys

/-- `post['id']` read as an integer; defaults to `0` for a malformed post
(where Python would raise instead — all claims concern well-formed posts). -/
def postIdD (p : Post) : Int :=
  match getKey p "id" with
  | some (.vInt n) => n
  | _ => 0

/-- `BlogManager._generate_id`:
`max(post['id'] for post in posts) + 1 if posts else 1`. -/
def generate_id (posts : List Post) : Int :=
  match posts.map postIdD with
  | [] => 1
  | x :: xs => listMax x xs + 1

/-- `BlogManager._format_datetime`: `datetime.fromisoformat(s)` followed by
`strftime` with a year-month-day format. On every string `fromisoformat`
accepts, the result is exactly the first ten characters of the input (the
zero-padded date part of an ISO 8601 string), which is how it is modelled. -/
def format_datetime (s : String) : String := s.take 10

/-- The date-reformatting loop body shared by `get_all_posts` and
`search_posts`: `post['created'] = format(post.get('created', ""))` and, when
the key exists, `post['updated'] = format(post.get('updated', ""))`. -/
def formatPost (p : Post) : Post :=
  let p1 := setKey p "created" (.vStr (format_datetime (pyStr (getKey p "created"))))
  match getKey p1 "updated" with
  | some v => setKey p1 "updated" (.vStr (format_datetime (pyStr (some v))))
  | none => p1

/-- The sort key `post.get(sort, '')` of `get_all_posts`. Non-string values at
the sort field are mapped to `""` (Python would raise `TypeError` when
comparing them with strings; well-formed posts only carry strings there). -/
def sortKey (p : Post) (f : String) : String :=
  match getKey p f with
  | some (.vStr s) => s
  | some (.vInt _) => ""
  | none => ""

/-- Lexicographic order on character lists by code point — Python's `<=` on
strings. -/
def charListLe : List Char → List Char → Bool
  | [], _ => true
  | _ :: _, [] => false
  | c :: cs, d :: ds => if c = d then charListLe cs ds else decide (c < d)

/-- Python `s1 <= s2` on strings. -/
def strLe (a b : String) : Bool := charListLe a.toList b.toList

/-- `posts.sort(key=lambda post: post.get(sort, ''), reverse=reverse)`:
a stable sort, descending when `reverse` — modelled with a stable `mergeSort`
on the corresponding comparator. -/
def sortPosts (f dir : String) (posts : List Post) : List Post :=
  if dir = "desc" then posts.mergeSort (fun a b => strLe (sortKey b f) (sortKey a f))
  else posts.mergeSort (fun a b => strLe (sortKey a f) (sortKey b f))

/-- Result of `BlogManager.get_all_posts`: a dict with either a `posts` key or
an `error` key. -/
inductive GetAllResult where
  | ok (posts : List Post)
  | error (msg : String)
deriving DecidableEq

/-- `BlogManager.get_all_posts`. The second component is the storage content
afterwards: the method never calls `save_posts`, so it is the input list. -/
def get_all_posts (sort : Option String) (direction : String) (posts : List Post) :
    GetAllResult × List Post :=
  if strTruthy sort ∧ sort.getD "" ∉ VALID_SORT_FIELDS then
    (.error ("Invalid sort field [" ++ sort.getD "" ++ "]. Valid options are: "
      ++ String.intercalate ", " VALID_SORT_FIELDS), posts)
  else if direction ∉ VALID_DIRECTIONS then
    (.error ("Invalid sort direction [" ++ direction ++ "]. Valid options are: "
      ++ String.intercalate ", " VALID_DIRECTIONS), posts)
  else
    let sorted := if strTruthy sort then sortPosts (sort.getD "") direction posts else posts
    (.ok (sorted.map formatPost), posts)

/-- `BlogManager.get_post_by_id`: first post whose `id` equals `post_id`.
(The `posts or load_posts()` idiom reloads on an empty list, which yields the
same storage content; the embedding passes the loaded list directly.) -/
def get_post_by_id (pid : Int) (posts : List Post) : Option Post :=
  posts.find? (fun p => decide (getKey p "id" = some (.vInt pid)))

/-- `BlogManager.add_post`: sets `data['id']` and `data['created']`, appends
`data`, saves. Returns the created post and the saved list. -/
def add_post (data : Post) (now : String) (posts : List Post) : Post × List Post :=
  let d1 := setKey data "id" (.vInt (generate_id posts))
  let d2 := setKey d1 "created" (.vStr now)
  (d2, posts ++ [d2])

/-- Python `list.remove(x)`: delete the first element equal to `x`. -/
def removeFirst (x : Post) : List Post → List Post
  | [] => []
  | p :: rest => if p = x then rest else p :: removeFirst x rest

/-- `BlogManager.delete_post`. Returns the flag and the storage content
afterwards (unchanged when nothing was deleted, since nothing is saved).
The `if post:` check is Python truthiness, hence the `isEmpty` guard. -/
def delete_post (pid : Int) (posts : List Post) : Bool × List Post :=
  match get_post_by_id pid posts with
  | some post => if post.isEmpty then (false, posts) else (true, removeFirst post posts)
  | none => (false, posts)

/-- The update loop of `BlogManager.update_post`:
`for key, value in data.items(): if key in REQUIRED_FIELDS: post[key] = value`. -/
def applyUpdate (data post : Post) : Post :=
  match data with
  | [] => post
  | (k, v) :: rest =>
      applyUpdate rest (if k ∈ REQUIRED_FIELDS then setKey post k v else post)

/-- In-place mutation of one list element: replace the first element equal to
`x` by `y`. -/
def replaceFirst (x y : Post) : List Post → List Post
  | [] => []
  | p :: rest => if p = x then y :: rest else p :: replaceFirst x y rest

/-- `BlogManager.update_post`. Returns the value the method returns (`None`
when no post has the id) and the storage content afterwards. When the found
post is truthy, the required-field entries of `data` are copied in, `updated`
is set to the current time, and the list is saved. -/
def update_post (pid : Int) (data : Post) (now : String) (posts : List Post) :
    Option Post × List Post :=
  match get_post_by_id pid posts with
  | some post =>
      if post.isEmpty then (some post, posts)
      else
        let post' := setKey (applyUpdate data post) "updated" (.vStr now)
        (some post', replaceFirst post post' posts)
  | none => (none, posts)

/-- `needle` is a prefix of `hay` (on character lists). -/
def hasPre (needle hay : List Char) : Bool :=
  match needle, hay with
  | [], _ => true
  | _ :: _, [] => false
  | c :: cs, d :: ds => c = d && hasPre cs ds

/-- `needle` occurs contiguously inside `hay` (on character lists). -/
def hasSub (needle hay : List Char) : Bool :=
  match hay with
  | [] => needle.isEmpty
  | _ :: ds => hasPre needle hay || hasSub needle ds

/-- Python `needle in hay` on strings: contiguous substring test. -/
def pyIn (needle hay : String) : Bool := hasSub needle.toList hay.toList

/-- Python `s.lower()`, modelled character by character (identical to Python
on ASCII text; Python additionally folds non-ASCII letters). -/
def pyLower (s : String) : String := String.mk (s.toList.map Char.toLower)

/-- `BlogManager._matches_query`: every query parameter among the required
fields must be a case-insensitive substring of the post's field value; other
parameters are skipped (`continue`). -/
def matches_query (post : Post) (query : List (String × String)) : Bool :=
  query.all (fun kv =>
    if kv.1 ∈ REQUIRED_FIELDS then
      pyIn (pyLower kv.2) (pyLower (pyStr (getKey post kv.1)))
    else true)

/-- `BlogManager.search_posts`: filter by the query, then reformat dates for
display. Never saves, so storage is untouched. -/
def search_posts (query : List (String × String)) (posts : List Post) : List Post :=
  (posts.filter (fun p => matches_query p query)).map formatPost

/-- Outcome of the `/api/posts/search` route. -/
inductive SearchResult where
  | ok (posts : List Post)
  | attributeError
deriving DecidableEq

/-- The `search_posts` route of `backend_app.py`. Its first statement builds
the query dict with a comprehension whose condition reads
`BlogManager.FIELDS` — an attribute that does not exist (the class defines
`REQUIRED_FIELDS`). The condition is evaluated once per query parameter, so a
request with at least one parameter raises `AttributeError` at the first item,
while a request with no parameters never touches the attribute: the query dict
is empty and the manager's `search_posts` runs on the empty query. -/
def search_posts_route (args : List (String × String)) (posts : List Post) : SearchResult :=
  match args with
  | [] => .ok (search_posts [] posts)
  | _ :: _ => .attributeError

/-- The `POST /api/posts` route: 400 on a falsy body (`if not new_post`) or a
failed validation, otherwise 201 with the created post. The payload is the
parsed JSON body (`none` for JSON `null`). -/
def add_post_route (payload : Option Post) (now : String) (posts : List Post) :
    (Nat × Option Post) × List Post :=
  match payload with
  | none => ((400, none), posts)
  | some data =>
      if data.isEmpty then ((400, none), posts)
      else
        match validate_data data with
        | some _ => ((400, none), posts)
        | none =>
            let r := add_post data now posts
            ((201, some r.1), r.2)

/-- The `DELETE /api/posts/<id>` route: 200 with a success message when
`delete_post` returns `True`, otherwise 404 with an error message. -/
def delete_post_route (pid : Int) (posts : List Post) : Nat × String × List Post :=
  let r := delete_post pid posts
  if r.1 then
    (200, "Post with id " ++ toString pid ++ " has been deleted successfully.", r.2)
  else
    (404, "There is no post with id " ++ toString pid ++ ".", r.2)

/-- The `PUT /api/posts/<id>` route. The body is passed to
`manager.update_post` with no validation. With a `null` body (`data = None`)
and an existing truthy post, `data.items()` raises `AttributeError`, which
surfaces as HTTP 500 — modelled by status 500. Otherwise: 200 with the
updated post when it is truthy, 404 when it is falsy or missing. -/
def update_post_route (pid : Int) (payload : Option Post) (now : String)
    (posts : List Post) : (Nat × Option Post) × List Post :=
  match payload with
  | none =>
      match get_post_by_id pid posts with
      | some post => if post.isEmpty then ((404, some post), posts) else ((500, none), posts)
      | none => ((404, none), posts)
  | some data =>
      match update_post pid data now posts with
      | (some post', posts') =>
          if post'.isEmpty then ((404, some post'), posts') else ((200, some post'), posts')
      | (none, posts') => ((404, none), posts')

/-- State of the persistence file of `Storage`. -/
inductive FileState where
  | missingFile
  | invalidJson
  | goodJson (posts : List Post)
deriving DecidableEq

/-- `Storage.save_posts`: overwrite the file with the given list. -/
def save_posts (posts : List Post) (_fs : FileState) : FileState :=
  .goodJson posts

/-- `Storage.load_posts`: return the parsed list; on `FileNotFoundError` or
`JSONDecodeError`, write an empty list to the file and return `[]`. -/
def load_posts : FileState → List Post × FileState
  | .goodJson ps => (ps, .goodJson ps)
  | .missingFile => ([], save_posts [] .missingFile)
  | .invalidJson => ([], save_posts [] .invalidJson)

/-- Well-formedness of a stored post as far as date display goes: `created`
is a string, `updated` is a string when present. On such posts the embedding
of `_format_datetime` is faithful (Python raises on missing or non-string
dates). -/
def wfPost (p : Post) : Bool :=
  (match getKey p "created" with
    | some (.vStr _) => true
    | _ => false)
  && (match getKey p "updated" with
    | some (.vStr _) => true
    | none => true
    | some (.vInt _) => false)

/-- The value at field `f`, if any, is a string — the condition under which
the `sortKey` embedding is faithful (Python raises `TypeError` when comparing
mixed types). -/
def wfFieldVal (f : String) (p : Post) : Bool :=
  match getKey p f with
  | some (.vStr _) => true
  | none => true
  | some (.vInt _) => false

/-! ## Helper lemmas -/

theorem getKey_setKey_self (p : Post) (k : String) (v : JVal) :
    getKey (setKey p k v) k = some v := by
  induction p with
  | nil => simp [setKey, getKey]
  | cons hd tl ih =>
      obtain ⟨k', w⟩ := hd
      by_cases h : k' = k
      · simp [setKey, getKey, h]
      · simp [setKey, getKey, h, ih]

theorem getKey_setKey_ne (p : Post) {k' k : String} (v : JVal) (h : k' ≠ k) :
    getKey (setKey p k v) k' = getKey p k' := by
  have hks : ¬k = k' := fun hh => h hh.symm
  induction p with
  | nil => simp [setKey, getKey, hks]
  | cons hd tl ih =>
      obtain ⟨k0, w⟩ := hd
      by_cases h0 : k0 = k
      · subst h0
        simp [setKey, getKey, hks]
      · by_cases h1 : k0 = k'
        · simp [setKey, getKey, h0, h1, hks, h]
        · simp [setKey, getKey, h0, h1, ih]

theorem ne_nil_of_getKey_some {p : Post} {k : String} {v : JVal}
    (h : getKey p k = some v) : p ≠ [] := by
  intro hnil; subst hnil; simp [getKey] at h

theorem setKey_ne_nil (p : Post) (k : String) (v : JVal) : setKey p k v ≠ [] := by
  cases p with
  | nil => simp [setKey]
  | cons hd tl => obtain ⟨k0, w⟩ := hd; simp [setKey]; split <;> simp

theorem applyUpdate_getKey_of_not_mem {k : String} :
    ∀ (data post : Post), k ∉ data.map Prod.fst →
      getKey (applyUpdate data post) k = getKey post k := by
  intro data
  induction data with
  | nil => intro post _; simp [applyUpdate]
  | cons hd tl ih =>
      intro post h
      obtain ⟨k0, v0⟩ := hd
      simp only [List.map_cons, List.mem_cons, not_or] at h
      have hne : k ≠ k0 := h.1
      by_cases hreq : k0 ∈ REQUIRED_FIELDS
      · simp only [applyUpdate, hreq, if_pos]
        rw [ih _ h.2, getKey_setKey_ne _ _ hne]
      · simp only [applyUpdate, hreq, if_neg, ite_false]
        exact ih _ h.2

theorem applyUpdate_getKey_of_not_required {k : String} (hk : k ∉ REQUIRED_FIELDS) :
    ∀ (data post : Post), getKey (applyUpdate data post) k = getKey post k := by
  intro data
  induction data with
  | nil => intro post; simp [applyUpdate]
  | cons hd tl ih =>
      intro post
      obtain ⟨k0, v0⟩ := hd
      by_cases hreq : k0 ∈ REQUIRED_FIELDS
      · have hne : k ≠ k0 := by intro h; exact hk (h ▸ hreq)
        simp only [applyUpdate, hreq, if_pos]
        rw [ih _, getKey_setKey_ne _ _ hne]
      · simp only [applyUpdate, hreq, if_neg, ite_false]
        exact ih _

theorem formatPost_getKey {k : String} (p : Post) (h1 : k ≠ "created")
    (h2 : k ≠ "updated") : getKey (formatPost p) k = getKey p k := by
  unfold formatPost
  cases hu : getKey (setKey p "created"
      (.vStr (format_datetime (pyStr (getKey p "created"))))) "updated" with
  | none =>
      simp only [hu]
      exact getKey_setKey_ne _ _ h1
  | some v =>
      simp only [hu]
      rw [getKey_setKey_ne _ _ h2, getKey_setKey_ne _ _ h1]

theorem self_le_listMax : ∀ (ys : List Int) (x : Int), x ≤ listMax x ys := by
  intro ys
  induction ys with
  | nil => intro x; simp [listMax]
  | cons y ys ih =>
      intro x
      calc x ≤ max x y := le_max_left x y
        _ ≤ listMax (max x y) ys := ih (max x y)
        _ = listMax x (y :: ys) := rfl

theorem mem_le_listMax : ∀ (ys : List Int) (x : Int) {y : Int}, y ∈ ys →
    y ≤ listMax x ys := by
  intro ys
  induction ys with
  | nil => intro x y hy; simp at hy
  | cons z zs ih =>
      intro x y hy
      rcases List.mem_cons.mp hy with h | h
      · subst h
        calc y ≤ max x y := le_max_right x y
          _ ≤ listMax (max x y) zs := self_le_listMax zs _
          _ = listMax x (y :: zs) := rfl
      · exact ih (max x z) h

theorem listMax_attained : ∀ (ys : List Int) (x : Int),
    listMax x ys = x ∨ listMax x ys ∈ ys := by
  intro ys
  induction ys with
  | nil => intro x; left; rfl
  | cons z zs ih =>
      intro x
      rcases ih (max x z) with h | h
      · rcases max_choice x z with hm | hm
        · left; simpa [listMax, hm] using h
        · right; simp only [listMax] at *
          rw [h, hm]; exact List.mem_cons_self z zs
      · right; exact List.mem_cons_of_mem z h

theorem generate_id_gt {posts : List Post} {p : Post} (hp : p ∈ posts) :
    postIdD p < generate_id posts := by
  have hmem : postIdD p ∈ posts.map postIdD := List.mem_map_of_mem postIdD hp
  cases hm : posts.map postIdD with
  | nil => rw [hm] at hmem; simp at hmem
  | cons x xs =>
      rw [hm] at hmem
      have hle : postIdD p ≤ listMax x xs := by
        rcases List.mem_cons.mp hmem with h | h
        · rw [h]; exact self_le_listMax xs x
        · exact mem_le_listMax xs x h
      simp only [generate_id, hm]
      omega

theorem generate_id_attained {posts : List Post} (h : posts ≠ []) :
    ∃ p, p ∈ posts ∧ postIdD p + 1 = generate_id posts := by
  cases hm : posts.map postIdD with
  | nil => exact absurd (List.map_eq_nil_iff.mp hm) h
  | cons x xs =>
      have hmem : listMax x xs ∈ x :: xs := by
        rcases listMax_attained xs x with h0 | h0
        · rw [h0]; exact List.mem_cons_self x xs
        · exact List.mem_cons_of_mem x h0
      have hmem' : listMax x xs ∈ posts.map postIdD := hm ▸ hmem
      obtain ⟨p, hp, hpid⟩ := List.mem_map.mp hmem'
      refine ⟨p, hp, ?_⟩
      simp only [generate_id, hm]
      rw [hpid]

theorem removeFirst_sublist (x : Post) : ∀ (l : List Post), List.Sublist (removeFirst x l) l := by
  intro l
  induction l with
  | nil => simp [removeFirst]
  | cons p rest ih =>
      by_cases h : p = x
      · simp only [removeFirst, h, if_pos]
        exact List.sublist_cons_self x rest
      · simp only [removeFirst, h, ite_false]
        exact ih.cons₂ p

theorem exists_removeFirst {x : Post} : ∀ {l : List Post}, x ∈ l →
    ∃ l1 l2, l = l1 ++ x :: l2 ∧ removeFirst x l = l1 ++ l2 := by
  intro l
  induction l with
  | nil => intro h; simp at h
  | cons p rest ih =>
      intro hx
      by_cases h : p = x
      · subst h
        exact ⟨[], rest, by simp [removeFirst]⟩
      · have hx' : x ∈ rest := by
          rcases List.mem_cons.mp hx with h0 | h0
          · exact absurd h0.symm h
          · exact h0
        obtain ⟨l1, l2, heq, hrem⟩ := ih hx'
        exact ⟨p :: l1, l2, by simp [heq], by simp [removeFirst, h, hrem]⟩

theorem replaceFirst_map_eq {g : Post → Int} {x y : Post} (h : g y = g x) :
    ∀ (l : List Post), (replaceFirst x y l).map g = l.map g := by
  intro l
  induction l with
  | nil => simp [replaceFirst]
  | cons p rest ih =>
      by_cases hp : p = x
      · subst hp; simp [replaceFirst, h]
      · simp [replaceFirst, hp, ih]

theorem exists_replaceFirst {x : Post} (y : Post) : ∀ {l : List Post}, x ∈ l →
    ∃ l1 l2, l = l1 ++ x :: l2 ∧ replaceFirst x y l = l1 ++ y :: l2 := by
  intro l
  induction l with
  | nil => intro h; simp at h
  | cons p rest ih =>
      intro hx
      by_cases h : p = x
      · subst h
        exact ⟨[], rest, by simp [replaceFirst]⟩
      · have hx' : x ∈ rest := by
          rcases List.mem_cons.mp hx with h0 | h0
          · exact absurd h0.symm h
          · exact h0
        obtain ⟨l1, l2, heq, hrep⟩ := ih hx'
        exact ⟨p :: l1, l2, by simp [heq], by simp [replaceFirst, h, hrep]⟩

theorem charListLe_total : ∀ (a b : List Char), charListLe a b || charListLe b a := by
  intro a
  induction a with
  | nil => intro b; simp [charListLe]
  | cons c cs ih =>
      intro b
      cases b with
      | nil => simp [charListLe]
      | cons d ds =>
          by_cases h : c = d
          · subst h
            simpa [charListLe] using ih ds
          · have h' : d ≠ c := fun hh => h hh.symm
            rcases lt_or_gt_of_ne h with hlt | hgt
            · simp [charListLe, h, h', hlt]
            · simp [charListLe, h, h', hgt]

theorem charListLe_trans : ∀ (a b c : List Char), charListLe a b → charListLe b c →
    charListLe a c := by
  intro a
  induction a with
  | nil => intro b c _ _; simp [charListLe]
  | cons x xs ih =>
      intro b c hab hbc
      cases b with
      | nil => simp [charListLe] at hab
      | cons y ys =>
          cases c with
          | nil => simp [charListLe] at hbc
          | cons z zs =>
              by_cases hxy : x = y <;> by_cases hyz : y = z
              · subst hxy; subst hyz
                simp only [charListLe, if_pos] at *
                exact ih ys zs hab hbc
              · subst hxy
                simp only [charListLe, hyz, ite_false, if_pos, ite_true] at hbc ⊢
                have hlt : x < z := of_decide_eq_true hbc
                simp [ne_of_lt hlt, hlt]
              · subst hyz
                simp only [charListLe, hxy, ite_false] at hab ⊢
                exact hab
              · simp only [charListLe, hxy, hyz, ite_false] at hab hbc
                have h1 : x < y := of_decide_eq_true hab
                have h2 : y < z := of_decide_eq_true hbc
                have hxz : x < z := lt_trans h1 h2
                simp [charListLe, ne_of_lt hxz, hxz]

theorem strLe_total (a b : String) : strLe a b || strLe b a :=
  charListLe_total a.toList b.toList

theorem strLe_trans {a b c : String} (h1 : strLe a b) (h2 : strLe b c) : strLe a c :=
  charListLe_trans a.toList b.toList c.toList h1 h2

theorem get_post_by_id_none_iff {pid : Int} {posts : List Post} :
    get_post_by_id pid posts = none ↔
      ∀ p ∈ posts, getKey p "id" ≠ some (.vInt pid) := by
  unfold get_post_by_id
  rw [List.find?_eq_none]
  constructor
  · intro h p hp; have := h p hp; simpa using this
  · intro h p hp; simpa using h p hp

theorem get_post_by_id_some {pid : Int} {posts : List Post} {p : Post}
    (h : get_post_by_id pid posts = some p) :
    p ∈ posts ∧ getKey p "id" = some (.vInt pid) := by
  unfold get_post_by_id at h
  refine ⟨List.mem_of_find?_eq_some h, ?_⟩
  have := List.find?_some h
  simpa using this

theorem isEmpty_false_of_ne_nil {p : Post} (h : p ≠ []) : p.isEmpty = false := by
  cases p with
  | nil => exact absurd rfl h
  | cons a l => rfl

/-! ## Claims -/

/-- C4: the identifier assigned by `add_post` to a new post is
`_generate_id posts`, which is `1` on an empty list and the maximum existing
identifier plus one otherwise (the maximum is attained by some stored post and
strictly exceeded by none), so the new identifier differs from every
identifier already present. -/
theorem claim_C4 (posts : List Post) (data : Post) (now : String) :
    getKey (add_post data now posts).1 "id" = some (.vInt (generate_id posts))
    ∧ (posts = [] → generate_id posts = 1)
    ∧ (posts ≠ [] → ∃ p, p ∈ posts ∧ postIdD p + 1 = generate_id posts)
    ∧ (∀ p ∈ posts, postIdD p < generate_id posts)
    ∧ (∀ p ∈ posts, getKey p "id" ≠ some (.vInt (generate_id posts))) := by
  refine ⟨?_, ?_, ?_, ?_, ?_⟩
  · show getKey (setKey (setKey data "id" (.vInt (generate_id posts))) "created"
        (.vStr now)) "id" = _
    rw [getKey_setKey_ne _ _ (by decide : ("id" : String) ≠ "created"),
      getKey_setKey_self]
  · intro h; subst h; rfl
  · exact fun h => generate_id_attained h
  · exact fun p hp => generate_id_gt hp
  · intro p hp heq
    have hlt := generate_id_gt hp
    simp only [postIdD, heq] at hlt
    exact lt_irrefl _ hlt

/-- Witness for C4 at a concrete store: one post with id 5; the fresh id is 6
and exceeds the stored id. -/
theorem claim_C4_witness :
    getKey (add_post [("title", JVal.vStr "t")] "N" [[("id", JVal.vInt 5)]]).1 "id"
      = some (JVal.vInt (generate_id [[("id", JVal.vInt 5)]]))
    ∧ postIdD [("id", JVal.vInt 5)] < generate_id [[("id", JVal.vInt 5)]]
    ∧ getKey [("id", JVal.vInt 5)] "id"
        ≠ some (JVal.vInt (generate_id [[("id", JVal.vInt 5)]])) := by
  have h := claim_C4 [[("id", JVal.vInt 5)]] [("title", JVal.vStr "t")] "N"
  exact ⟨h.1, h.2.2.2.1 _ (by decide), h.2.2.2.2 _ (by decide)⟩

/-- C9: `load_posts` on a missing file or unparseable JSON returns the empty
list and rewrites the file as an empty array; after any load the file holds
exactly the returned list, so every subsequent operation sees an empty store. -/
theorem claim_C9 :
    load_posts .missingFile = ([], .goodJson [])
    ∧ load_posts .invalidJson = ([], .goodJson [])
    ∧ (∀ fs : FileState, (load_posts fs).2 = .goodJson (load_posts fs).1)
    ∧ (load_posts (load_posts .missingFile).2).1 = []
    ∧ (load_posts (load_posts .invalidJson).2).1 = [] := by
  refine ⟨rfl, rfl, ?_, rfl, rfl⟩
  intro fs; cases fs <;> rfl

/-- C10: a required field bound to the empty string is treated as missing:
it appears in `missing_fields`, `validate_data` reports the missing-fields
error, and the POST route answers 400. -/
theorem claim_C10 (data : Post) (f : String) (now : String) (posts : List Post)
    (hf : f ∈ REQUIRED_FIELDS) (hv : getKey data f = some (.vStr "")) :
    f ∈ missing_fields data
    ∧ validate_data data
        = some ("Missing fields: " ++ String.intercalate ", " (missing_fields data))
    ∧ (add_post_route (some data) now posts).1.1 = 400 := by
  have htr : truthy (getKey data f) = false := by rw [hv]; rfl
  have hmem : f ∈ missing_fields data := by
    unfold missing_fields
    exact List.mem_filter.mpr ⟨hf, by rw [htr]; rfl⟩
  have hne : (missing_fields data).isEmpty = false := by
    cases hmf : missing_fields data with
    | nil => rw [hmf] at hmem; simp at hmem
    | cons a l => rfl
  have hval : validate_data data
      = some ("Missing fields: " ++ String.intercalate ", " (missing_fields data)) := by
    simp [validate_data, hne]
  have hdn : data ≠ [] := ne_nil_of_getKey_some hv
  have hie : data.isEmpty = false := isEmpty_false_of_ne_nil hdn
  refine ⟨hmem, hval, ?_⟩
  simp [add_post_route, hie, hval]

/-- Witness for C10: a payload whose `title` is the empty string is rejected
with 400 even though the key is present. -/
theorem claim_C10_witness :
    "title" ∈ missing_fields [("title", JVal.vStr "")]
    ∧ (add_post_route (some [("title", JVal.vStr "")]) "N" []).1.1 = 400 := by
  have h := claim_C10 [("title", JVal.vStr "")] "title" "N" []
    (by decide) (by decide)
  exact ⟨h.1, h.2.2⟩

/-- C2 as stated is false: `update_post` always overwrites the `updated`
timestamp, a field not named in the payload. Concrete run: the stored post has
`updated = "2024-02-01..."`, the payload is the empty dict, yet after the
update the returned post carries the new `updated` value. -/
theorem claim_C2_counterexample :
    "updated" ∉ (([] : Post)).map Prod.fst
    ∧ (update_post 2 ([] : Post) "2025-03-01T00:00:00+00:00"
        [[("id", JVal.vInt 2), ("title", JVal.vStr "t"), ("content", JVal.vStr "c"),
          ("author", JVal.vStr "a"), ("created", JVal.vStr "2024-01-01T00:00:00+00:00"),
          ("updated", JVal.vStr "2024-02-01T00:00:00+00:00")]]).1
      = some [("id", JVal.vInt 2), ("title", JVal.vStr "t"), ("content", JVal.vStr "c"),
          ("author", JVal.vStr "a"), ("created", JVal.vStr "2024-01-01T00:00:00+00:00"),
          ("updated", JVal.vStr "2025-03-01T00:00:00+00:00")]
    ∧ getKey ((update_post 2 ([] : Post) "2025-03-01T00:00:00+00:00"
        [[("id", JVal.vInt 2), ("title", JVal.vStr "t"), ("content", JVal.vStr "c"),
          ("author", JVal.vStr "a"), ("created", JVal.vStr "2024-01-01T00:00:00+00:00"),
          ("updated", JVal.vStr "2024-02-01T00:00:00+00:00")]]).1.getD []) "updated"
      ≠ getKey [("id", JVal.vInt 2), ("title", JVal.vStr "t"), ("content", JVal.vStr "c"),
          ("author", JVal.vStr "a"), ("created", JVal.vStr "2024-01-01T00:00:00+00:00"),
          ("updated", JVal.vStr "2024-02-01T00:00:00+00:00")] "updated" := by
  exact ⟨by decide, by decide, by decide⟩

/-- C2 amended: updating changes only the payload's fields plus the `updated`
timestamp — every field of the stored post neither named in the payload nor
equal to `updated` keeps its value, and the stored list changes only at that
post's position. -/
theorem claim_C2 (posts : List Post) (pid : Int) (data : Post) (now : String)
    (post0 : Post) (hfind : get_post_by_id pid posts = some post0) (k : String)
    (hk1 : k ∉ data.map Prod.fst) (hk2 : k ≠ "updated") :
    ∃ post1, (update_post pid data now posts).1 = some post1
      ∧ getKey post1 k = getKey post0 k
      ∧ ∃ l1 l2, posts = l1 ++ post0 :: l2
          ∧ (update_post pid data now posts).2 = l1 ++ post1 :: l2 := by
  have hmem := (get_post_by_id_some hfind).1
  cases hie : post0.isEmpty with
  | true =>
      have h2 : (update_post pid data now posts).2 = posts := by
        simp [update_post, hfind, hie]
      refine ⟨post0, by simp [update_post, hfind, hie], rfl, ?_⟩
      obtain ⟨l1, l2, hsplit⟩ := List.append_of_mem hmem
      exact ⟨l1, l2, hsplit, by rw [h2, hsplit]⟩
  | false =>
      have h2 : (update_post pid data now posts).2
          = replaceFirst post0 (setKey (applyUpdate data post0) "updated" (.vStr now)) posts := by
        simp [update_post, hfind, hie]
      refine ⟨setKey (applyUpdate data post0) "updated" (.vStr now),
        by simp [update_post, hfind, hie], ?_, ?_⟩
      · rw [getKey_setKey_ne _ _ hk2, applyUpdate_getKey_of_not_mem _ _ hk1]
      · obtain ⟨l1, l2, hsplit, hrep⟩ := exists_replaceFirst
          (setKey (applyUpdate data post0) "updated" (.vStr now)) hmem
        exact ⟨l1, l2, hsplit, by rw [h2, hrep]⟩

/-- Witness for C2 (amended): updating a post with payload
`{"title": "new"}` leaves its `content` untouched. -/
theorem claim_C2_witness :
    ∃ post1, (update_post 1 [("title", JVal.vStr "new")] "2025-01-01T00:00:00+00:00"
        [[("id", JVal.vInt 1), ("title", JVal.vStr "t"), ("content", JVal.vStr "c"),
          ("author", JVal.vStr "a"),
          ("created", JVal.vStr "2024-01-01T00:00:00+00:00")]]).1 = some post1
      ∧ getKey post1 "content"
          = getKey [("id", JVal.vInt 1), ("title", JVal.vStr "t"),
              ("content", JVal.vStr "c"), ("author", JVal.vStr "a"),
              ("created", JVal.vStr "2024-01-01T00:00:00+00:00")] "content"
      ∧ ∃ l1 l2, [[("id", JVal.vInt 1), ("title", JVal.vStr "t"),
            ("content", JVal.vStr "c"), ("author", JVal.vStr "a"),
            ("created", JVal.vStr "2024-01-01T00:00:00+00:00")]]
          = l1 ++ [("id", JVal.vInt 1), ("title", JVal.vStr "t"),
              ("content", JVal.vStr "c"), ("author", JVal.vStr "a"),
              ("created", JVal.vStr "2024-01-01T00:00:00+00:00")] :: l2
          ∧ (update_post 1 [("title", JVal.vStr "new")] "2025-01-01T00:00:00+00:00"
              [[("id", JVal.vInt 1), ("title", JVal.vStr "t"), ("content", JVal.vStr "c"),
                ("author", JVal.vStr "a"),
                ("created", JVal.vStr "2024-01-01T00:00:00+00:00")]]).2
            = l1 ++ post1 :: l2 :=
  claim_C2 _ 1 [("title", JVal.vStr "new")] "2025-01-01T00:00:00+00:00" _
    (by decide) "content" (by decide) (by decide)

/-- C1 as stated is false for PUT: the route passes the body to
`update_post` without any validation, so a payload missing every required
field (the empty JSON object, which POST would reject) is accepted with 200
on an existing id. -/
theorem claim_C1_counterexample :
    validate_data ([] : Post) ≠ none
    ∧ (update_post_route 1 (some ([] : Post)) "2025-01-01T00:00:00+00:00"
        [[("id", JVal.vInt 1), ("title", JVal.vStr "t"), ("content", JVal.vStr "c"),
          ("author", JVal.vStr "a"),
          ("created", JVal.vStr "2024-01-01T00:00:00+00:00")]]).1.1 = 200 := by
  exact ⟨by decide, by decide⟩

/-- C1 amended: POST answers 400 when the body is absent (`null`), empty, or
has a missing/falsy required field; PUT performs no field validation and
answers 200 for any JSON-object payload whenever a post with the id exists. -/
theorem claim_C1 (posts : List Post) (data : Post) (now : String) (pid : Int) :
    (add_post_route none now posts).1.1 = 400
    ∧ (data.isEmpty = true → (add_post_route (some data) now posts).1.1 = 400)
    ∧ (∀ f, f ∈ REQUIRED_FIELDS → truthy (getKey data f) = false →
        (add_post_route (some data) now posts).1.1 = 400)
    ∧ ((∃ p, p ∈ posts ∧ getKey p "id" = some (.vInt pid)) →
        (update_post_route pid (some data) now posts).1.1 = 200) := by
  refine ⟨rfl, ?_, ?_, ?_⟩
  · intro hie; simp [add_post_route, hie]
  · intro f hf htr
    cases hie : data.isEmpty with
    | true => simp [add_post_route, hie]
    | false =>
        have hmem : f ∈ missing_fields data :=
          List.mem_filter.mpr ⟨hf, by rw [htr]; rfl⟩
        have hne : (missing_fields data).isEmpty = false := by
          cases hmf : missing_fields data with
          | nil => rw [hmf] at hmem; simp at hmem
          | cons a l => rfl
        have hm : validate_data data
            = some ("Missing fields: " ++ String.intercalate ", " (missing_fields data)) := by
          simp [validate_data, hne]
        simp [add_post_route, hie, hm]
  · rintro ⟨p, hp, hk⟩
    have hfound : ∃ q, get_post_by_id pid posts = some q := by
      cases hq : get_post_by_id pid posts with
      | some q => exact ⟨q, rfl⟩
      | none => exact absurd hk (get_post_by_id_none_iff.mp hq p hp)
    obtain ⟨q, hq⟩ := hfound
    have hqid := (get_post_by_id_some hq).2
    have hqne : q.isEmpty = false := isEmpty_false_of_ne_nil (ne_nil_of_getKey_some hqid)
    have hupd : update_post pid data now posts
        = (some (setKey (applyUpdate data q) "updated" (.vStr now)),
           replaceFirst q (setKey (applyUpdate data q) "updated" (.vStr now)) posts) := by
      simp [update_post, hq, hqne]
    have hpne : (setKey (applyUpdate data q) "updated" (.vStr now)).isEmpty = false :=
      isEmpty_false_of_ne_nil (setKey_ne_nil _ _ _)
    simp [update_post_route, hupd, hpne]

/-- Witness for C1 (amended): a payload with an empty `title` gets 400 from
POST, while the very same payload gets 200 from PUT on an existing post. -/
theorem claim_C1_witness :
    (add_post_route (some [("title", JVal.vStr "")]) "N"
        [[("id", JVal.vInt 1), ("title", JVal.vStr "t"), ("content", JVal.vStr "c"),
          ("author", JVal.vStr "a"),
          ("created", JVal.vStr "2024-01-01T00:00:00+00:00")]]).1.1 = 400
    ∧ (update_post_route 1 (some [("title", JVal.vStr "")]) "N"
        [[("id", JVal.vInt 1), ("title", JVal.vStr "t"), ("content", JVal.vStr "c"),
          ("author", JVal.vStr "a"),
          ("created", JVal.vStr "2024-01-01T00:00:00+00:00")]]).1.1 = 200 := by
  have h := claim_C1
    [[("id", JVal.vInt 1), ("title", JVal.vStr "t"), ("content", JVal.vStr "c"),
      ("author", JVal.vStr "a"), ("created", JVal.vStr "2024-01-01T00:00:00+00:00")]]
    [("title", JVal.vStr "")] "N" 1
  exact ⟨h.2.2.1 "title" (by decide) (by decide),
    h.2.2.2 ⟨[("id", JVal.vInt 1), ("title", JVal.vStr "t"), ("content", JVal.vStr "c"),
      ("author", JVal.vStr "a"), ("created", JVal.vStr "2024-01-01T00:00:00+00:00")],
      by decide, by decide⟩⟩

/-- C3: the claim is right about the intended behaviour — the manager's
`search_posts` filters by case-insensitive substring over exactly the three
required fields — but the HTTP route is broken: its comprehension condition
reads `BlogManager.FIELDS`, an attribute that does not exist (the class
defines `REQUIRED_FIELDS`), so every GET carrying at least one query
parameter raises `AttributeError` (HTTP 500) instead of returning the
matches; only a parameterless request survives (returning all posts, which
vacuously match the empty query). The manager level is evaluated here on a
concrete store: the query `title=first` matches the post titled "First Post"
(case-insensitively) and not the other one. -/
theorem claim_C3 :
    (∀ kv args posts, search_posts_route (kv :: args) posts
      = SearchResult.attributeError)
    ∧ (∀ posts, search_posts_route [] posts = SearchResult.ok (search_posts [] posts))
    ∧ search_posts [("title", "first")]
        [[("id", JVal.vInt 1), ("title", JVal.vStr "First Post"),
          ("content", JVal.vStr "Hello world"), ("author", JVal.vStr "Alice"),
          ("created", JVal.vStr "2024-01-01T00:00:00+00:00")],
         [("id", JVal.vInt 2), ("title", JVal.vStr "Second"),
          ("content", JVal.vStr "Another"), ("author", JVal.vStr "Bob"),
          ("created", JVal.vStr "2024-02-01T00:00:00+00:00")]]
      = [formatPost [("id", JVal.vInt 1), ("title", JVal.vStr "First Post"),
          ("content", JVal.vStr "Hello world"), ("author", JVal.vStr "Alice"),
          ("created", JVal.vStr "2024-01-01T00:00:00+00:00")]]
    ∧ matches_query [("id", JVal.vInt 1), ("title", JVal.vStr "First Post"),
          ("content", JVal.vStr "Hello world"), ("author", JVal.vStr "Alice"),
          ("created", JVal.vStr "2024-01-01T00:00:00+00:00")]
        [("title", "first")] = true
    ∧ matches_query [("id", JVal.vInt 2), ("title", JVal.vStr "Second"),
          ("content", JVal.vStr "Another"), ("author", JVal.vStr "Bob"),
          ("created", JVal.vStr "2024-02-01T00:00:00+00:00")]
        [("title", "first")] = false
    ∧ matches_query [("id", JVal.vInt 1), ("title", JVal.vStr "First Post"),
          ("content", JVal.vStr "Hello world"), ("author", JVal.vStr "Alice"),
          ("created", JVal.vStr "2024-01-01T00:00:00+00:00")]
        [("id", "1")] = true
    ∧ search_posts []
        [[("id", JVal.vInt 1), ("title", JVal.vStr "First Post"),
          ("content", JVal.vStr "Hello world"), ("author", JVal.vStr "Alice"),
          ("created", JVal.vStr "2024-01-01T00:00:00+00:00")],
         [("id", JVal.vInt 2), ("title", JVal.vStr "Second"),
          ("content", JVal.vStr "Another"), ("author", JVal.vStr "Bob"),
          ("created", JVal.vStr "2024-02-01T00:00:00+00:00")]]
      = [formatPost [("id", JVal.vInt 1), ("title", JVal.vStr "First Post"),
          ("content", JVal.vStr "Hello world"), ("author", JVal.vStr "Alice"),
          ("created", JVal.vStr "2024-01-01T00:00:00+00:00")],
         formatPost [("id", JVal.vInt 2), ("title", JVal.vStr "Second"),
          ("content", JVal.vStr "Another"), ("author", JVal.vStr "Bob"),
          ("created", JVal.vStr "2024-02-01T00:00:00+00:00")]] := by
  exact ⟨fun _ _ _ => rfl, fun _ => rfl, by decide, by decide, by decide, by decide,
    by decide⟩

/-- C5: when identifiers are unique, add appends at the end and keeps the ids
unique; delete leaves a sublist (so no reordering) and removes exactly one
element when it reports success; update leaves the sequence of ids untouched
(in-place mutation, no reordering) — all preserving uniqueness. -/
theorem claim_C5 (posts : List Post) (pid : Int) (data upd : Post) (now : String)
    (hnd : (posts.map postIdD).Nodup) :
    ((add_post data now posts).2 = posts ++ [(add_post data now posts).1]
      ∧ ((add_post data now posts).2.map postIdD).Nodup)
    ∧ (List.Sublist (delete_post pid posts).2 posts
      ∧ ((delete_post pid posts).1 = true →
          ∃ l1 p l2, posts = l1 ++ p :: l2 ∧ (delete_post pid posts).2 = l1 ++ l2)
      ∧ ((delete_post pid posts).2.map postIdD).Nodup)
    ∧ ((update_post pid upd now posts).2.map postIdD = posts.map postIdD
      ∧ ((update_post pid upd now posts).2.map postIdD).Nodup) := by
  have hid : getKey (setKey (setKey data "id" (.vInt (generate_id posts))) "created"
      (.vStr now)) "id" = some (.vInt (generate_id posts)) := by
    rw [getKey_setKey_ne _ _ (by decide : ("id" : String) ≠ "created"),
      getKey_setKey_self]
  have hpidAdd : postIdD (add_post data now posts).1 = generate_id posts := by
    show postIdD (setKey (setKey data "id" (.vInt (generate_id posts))) "created"
      (.vStr now)) = _
    simp [postIdD, hid]
  have haddmap : (add_post data now posts).2.map postIdD
      = posts.map postIdD ++ [generate_id posts] := by
    show (posts ++ [(add_post data now posts).1]).map postIdD = _
    rw [List.map_append]
    simp [hpidAdd]
  have haddnd : ((add_post data now posts).2.map postIdD).Nodup := by
    rw [haddmap]
    refine List.Nodup.append hnd (List.nodup_singleton _) ?_
    intro a ha hb
    rw [List.mem_singleton] at hb
    subst hb
    obtain ⟨p, hp, hpa⟩ := List.mem_map.mp ha
    have hlt := generate_id_gt hp
    rw [hpa] at hlt
    exact lt_irrefl _ hlt
  have hdel : List.Sublist (delete_post pid posts).2 posts
      ∧ ((delete_post pid posts).1 = true →
          ∃ l1 p l2, posts = l1 ++ p :: l2 ∧ (delete_post pid posts).2 = l1 ++ l2) := by
    cases hfind : get_post_by_id pid posts with
    | none =>
        have hd : delete_post pid posts = (false, posts) := by simp [delete_post, hfind]
        rw [hd]
        exact ⟨List.Sublist.refl posts, by intro h; simp at h⟩
    | some post =>
        cases hie : post.isEmpty with
        | true =>
            have hd : delete_post pid posts = (false, posts) := by
              simp [delete_post, hfind, hie]
            rw [hd]
            exact ⟨List.Sublist.refl posts, by intro h; simp at h⟩
        | false =>
            have hd : delete_post pid posts = (true, removeFirst post posts) := by
              simp [delete_post, hfind, hie]
            rw [hd]
            refine ⟨removeFirst_sublist post posts, ?_⟩
            intro _
            obtain ⟨l1, l2, hs, hr⟩ := exists_removeFirst (get_post_by_id_some hfind).1
            exact ⟨l1, post, l2, hs, hr⟩
  have hdelnd : ((delete_post pid posts).2.map postIdD).Nodup :=
    List.Nodup.sublist (List.Sublist.map postIdD hdel.1) hnd
  have hupdmap : (update_post pid upd now posts).2.map postIdD = posts.map postIdD := by
    cases hfind : get_post_by_id pid posts with
    | none => simp [update_post, hfind]
    | some post =>
        cases hie : post.isEmpty with
        | true => simp [update_post, hfind, hie]
        | false =>
            have hgk : getKey (setKey (applyUpdate upd post) "updated" (.vStr now)) "id"
                = getKey post "id" := by
              rw [getKey_setKey_ne _ _ (by decide : ("id" : String) ≠ "updated"),
                applyUpdate_getKey_of_not_required
                  (by decide : ("id" : String) ∉ REQUIRED_FIELDS) upd post]
            have hpe : postIdD (setKey (applyUpdate upd post) "updated" (.vStr now))
                = postIdD post := by
              simp [postIdD, hgk]
            have h2 : (update_post pid upd now posts).2
                = replaceFirst post (setKey (applyUpdate upd post) "updated" (.vStr now))
                    posts := by
              simp [update_post, hfind, hie]
            rw [h2, replaceFirst_map_eq hpe]
  exact ⟨⟨rfl, haddnd⟩, ⟨hdel.1, hdel.2, hdelnd⟩, hupdmap, hupdmap ▸ hnd⟩

/-- Witness for C5 on a two-post store with unique ids 1 and 2. -/
theorem claim_C5_witness :
    ((add_post [("title", JVal.vStr "x")] "N"
        [[("id", JVal.vInt 1)], [("id", JVal.vInt 2)]]).2.map postIdD).Nodup
    ∧ ((delete_post 1 [[("id", JVal.vInt 1)], [("id", JVal.vInt 2)]]).2.map postIdD).Nodup
    ∧ (update_post 1 [("title", JVal.vStr "y")] "N"
        [[("id", JVal.vInt 1)], [("id", JVal.vInt 2)]]).2.map postIdD
      = [[("id", JVal.vInt 1)], [("id", JVal.vInt 2)]].map postIdD := by
  have h := claim_C5 [[("id", JVal.vInt 1)], [("id", JVal.vInt 2)]] 1
    [("title", JVal.vStr "x")] [("title", JVal.vStr "y")] "N" (by decide)
  exact ⟨h.1.2, h.2.1.2.2, h.2.2.1⟩

/-- C6: `delete_post` succeeds exactly when a post with the id exists; then
DELETE answers 200 and exactly that post is removed, the rest staying put;
otherwise DELETE answers 404 with the error message, the store is unchanged,
and PUT on the same id answers 404 as well (for any payload). -/
theorem claim_C6 (posts : List Post) (pid : Int) (payload : Option Post) (now : String) :
    ((delete_post pid posts).1 = true
      ↔ ∃ p, p ∈ posts ∧ getKey p "id" = some (.vInt pid))
    ∧ ((∃ p, p ∈ posts ∧ getKey p "id" = some (.vInt pid)) →
        (delete_post_route pid posts).1 = 200
        ∧ ∃ l1 p l2, posts = l1 ++ p :: l2 ∧ getKey p "id" = some (.vInt pid)
            ∧ (delete_post_route pid posts).2.2 = l1 ++ l2)
    ∧ ((¬∃ p, p ∈ posts ∧ getKey p "id" = some (.vInt pid)) →
        (delete_post_route pid posts).1 = 404
        ∧ (delete_post_route pid posts).2.1
            = "There is no post with id " ++ toString pid ++ "."
        ∧ (delete_post_route pid posts).2.2 = posts
        ∧ (update_post_route pid payload now posts).1.1 = 404) := by
  cases hfind : get_post_by_id pid posts with
  | none =>
      have hnone := get_post_by_id_none_iff.mp hfind
      have hnex : ¬∃ p, p ∈ posts ∧ getKey p "id" = some (.vInt pid) := by
        rintro ⟨p, hp, hk⟩; exact hnone p hp hk
      have hd : delete_post pid posts = (false, posts) := by simp [delete_post, hfind]
      have hroute : delete_post_route pid posts
          = (404, "There is no post with id " ++ toString pid ++ ".", posts) := by
        simp [delete_post_route, hd]
      have hput : (update_post_route pid payload now posts).1.1 = 404 := by
        cases payload with
        | none => simp [update_post_route, hfind]
        | some data =>
            have hu : update_post pid data now posts = (none, posts) := by
              simp [update_post, hfind]
            simp [update_post_route, hu]
      refine ⟨?_, fun hex => absurd hex hnex,
        fun _ => ⟨by rw [hroute], by rw [hroute], by rw [hroute], hput⟩⟩
      constructor
      · intro h; rw [hd] at h; simp at h
      · intro hex; exact absurd hex hnex
  | some post =>
      obtain ⟨hpmem, hpid⟩ := get_post_by_id_some hfind
      have hie : post.isEmpty = false := isEmpty_false_of_ne_nil (ne_nil_of_getKey_some hpid)
      have hd : delete_post pid posts = (true, removeFirst post posts) := by
        simp [delete_post, hfind, hie]
      have hex : ∃ p, p ∈ posts ∧ getKey p "id" = some (.vInt pid) := ⟨post, hpmem, hpid⟩
      have hroute200 : (delete_post_route pid posts).1 = 200 := by
        simp [delete_post_route, hd]
      have hroute2 : (delete_post_route pid posts).2.2 = removeFirst post posts := by
        simp [delete_post_route, hd]
      refine ⟨⟨fun _ => hex, fun _ => by rw [hd]⟩, fun _ => ⟨hroute200, ?_⟩,
        fun hn => absurd hex hn⟩
      obtain ⟨l1, l2, hs, hr⟩ := exists_removeFirst hpmem
      exact ⟨l1, post, l2, hs, hpid, by rw [hroute2, hr]⟩

/-- Witness for C6: deleting the only post (id 7) answers 200, and the
success flag is equivalent to the existence of a post with id 7. -/
theorem claim_C6_witness :
    (delete_post_route 7 [[("id", JVal.vInt 7), ("title", JVal.vStr "t"),
        ("content", JVal.vStr "c"), ("author", JVal.vStr "a"),
        ("created", JVal.vStr "2024-01-01T00:00:00+00:00")]]).1 = 200
    ∧ ((delete_post 7 [[("id", JVal.vInt 7), ("title", JVal.vStr "t"),
          ("content", JVal.vStr "c"), ("author", JVal.vStr "a"),
          ("created", JVal.vStr "2024-01-01T00:00:00+00:00")]]).1 = true
        ↔ ∃ p, p ∈ [[("id", JVal.vInt 7), ("title", JVal.vStr "t"),
            ("content", JVal.vStr "c"), ("author", JVal.vStr "a"),
            ("created", JVal.vStr "2024-01-01T00:00:00+00:00")]]
          ∧ getKey p "id" = some (JVal.vInt 7)) := by
  have h := claim_C6 [[("id", JVal.vInt 7), ("title", JVal.vStr "t"),
    ("content", JVal.vStr "c"), ("author", JVal.vStr "a"),
    ("created", JVal.vStr "2024-01-01T00:00:00+00:00")]] 7 none "N"
  exact ⟨(h.2.1 ⟨[("id", JVal.vInt 7), ("title", JVal.vStr "t"),
    ("content", JVal.vStr "c"), ("author", JVal.vStr "a"),
    ("created", JVal.vStr "2024-01-01T00:00:00+00:00")], by decide, by decide⟩).1, h.1⟩

/-- C7: with a valid creation payload (all three required fields truthy), the
POST route answers 201 with the created post, the created post is stored, it
keeps the payload's title, content and author, and it appears — with those
same three values — in the listing a subsequent `get_all_posts` returns. -/
theorem claim_C7 (data : Post) (now : String) (posts : List Post)
    (h1 : truthy (getKey data "title") = true)
    (h2 : truthy (getKey data "content") = true)
    (h3 : truthy (getKey data "author") = true)
    (_hwf : ∀ p ∈ posts, wfPost p = true) :
    add_post_route (some data) now posts
      = ((201, some (add_post data now posts).1), (add_post data now posts).2)
    ∧ (add_post data now posts).1 ∈ (add_post data now posts).2
    ∧ getKey (add_post data now posts).1 "title" = getKey data "title"
    ∧ getKey (add_post data now posts).1 "content" = getKey data "content"
    ∧ getKey (add_post data now posts).1 "author" = getKey data "author"
    ∧ ∃ l, get_all_posts none "asc" (add_post data now posts).2
          = (.ok l, (add_post data now posts).2)
        ∧ formatPost (add_post data now posts).1 ∈ l
        ∧ getKey (formatPost (add_post data now posts).1) "title" = getKey data "title"
        ∧ getKey (formatPost (add_post data now posts).1) "content" = getKey data "content"
        ∧ getKey (formatPost (add_post data now posts).1) "author" = getKey data "author" := by
  have hdn : data ≠ [] := by
    intro h; subst h; simp [getKey, truthy] at h1
  have hie : data.isEmpty = false := isEmpty_false_of_ne_nil hdn
  have hmf : missing_fields data = [] := by
    simp [missing_fields, REQUIRED_FIELDS, h1, h2, h3]
  have hval : validate_data data = none := by simp [validate_data, hmf]
  have hroute : add_post_route (some data) now posts
      = ((201, some (add_post data now posts).1), (add_post data now posts).2) := by
    simp [add_post_route, hie, hval]
  have gt1 : getKey (add_post data now posts).1 "title" = getKey data "title" := by
    show getKey (setKey (setKey data "id" (.vInt (generate_id posts))) "created"
      (.vStr now)) "title" = _
    rw [getKey_setKey_ne _ _ (by decide : ("title" : String) ≠ "created"),
      getKey_setKey_ne _ _ (by decide : ("title" : String) ≠ "id")]
  have gt2 : getKey (add_post data now posts).1 "content" = getKey data "content" := by
    show getKey (setKey (setKey data "id" (.vInt (generate_id posts))) "created"
      (.vStr now)) "content" = _
    rw [getKey_setKey_ne _ _ (by decide : ("content" : String) ≠ "created"),
      getKey_setKey_ne _ _ (by decide : ("content" : String) ≠ "id")]
  have gt3 : getKey (add_post data now posts).1 "author" = getKey data "author" := by
    show getKey (setKey (setKey data "id" (.vInt (generate_id posts))) "created"
      (.vStr now)) "author" = _
    rw [getKey_setKey_ne _ _ (by decide : ("author" : String) ≠ "created"),
      getKey_setKey_ne _ _ (by decide : ("author" : String) ≠ "id")]
  have hmem : (add_post data now posts).1 ∈ (add_post data now posts).2 := by
    show _ ∈ posts ++ [(add_post data now posts).1]
    exact List.mem_append_right _ (List.mem_singleton_self _)
  have hget : get_all_posts none "asc" (add_post data now posts).2
      = (.ok ((add_post data now posts).2.map formatPost),
        (add_post data now posts).2) := by
    simp [get_all_posts, strTruthy, VALID_DIRECTIONS]
  refine ⟨hroute, hmem, gt1, gt2, gt3,
    (add_post data now posts).2.map formatPost, hget,
    List.mem_map_of_mem _ hmem, ?_, ?_, ?_⟩
  · rw [formatPost_getKey _ (by decide) (by decide), gt1]
  · rw [formatPost_getKey _ (by decide) (by decide), gt2]
  · rw [formatPost_getKey _ (by decide) (by decide), gt3]

/-- Witness for C7: creating a post from the payload
`{"title": "T", "content": "C", "author": "A"}` on an empty store. -/
theorem claim_C7_witness :
    add_post_route (some [("title", JVal.vStr "T"), ("content", JVal.vStr "C"),
        ("author", JVal.vStr "A")]) "2024-01-01T00:00:00+00:00" []
      = ((201, some (add_post [("title", JVal.vStr "T"), ("content", JVal.vStr "C"),
          ("author", JVal.vStr "A")] "2024-01-01T00:00:00+00:00" []).1),
        (add_post [("title", JVal.vStr "T"), ("content", JVal.vStr "C"),
          ("author", JVal.vStr "A")] "2024-01-01T00:00:00+00:00" []).2)
    ∧ (add_post [("title", JVal.vStr "T"), ("content", JVal.vStr "C"),
        ("author", JVal.vStr "A")] "2024-01-01T00:00:00+00:00" []).1
      ∈ (add_post [("title", JVal.vStr "T"), ("content", JVal.vStr "C"),
        ("author", JVal.vStr "A")] "2024-01-01T00:00:00+00:00" []).2
    ∧ getKey (add_post [("title", JVal.vStr "T"), ("content", JVal.vStr "C"),
        ("author", JVal.vStr "A")] "2024-01-01T00:00:00+00:00" []).1 "title"
      = getKey [("title", JVal.vStr "T"), ("content", JVal.vStr "C"),
        ("author", JVal.vStr "A")] "title" := by
  have h := claim_C7 [("title", JVal.vStr "T"), ("content", JVal.vStr "C"),
    ("author", JVal.vStr "A")] "2024-01-01T00:00:00+00:00" []
    (by decide) (by decide) (by decide) (by decide)
  exact ⟨h.1, h.2.1, h.2.2.1⟩

/-- C8 as stated is false at the boundary: an empty-string sort field is
outside the valid set, yet Python's `if sort and ...` treats it as falsy,
skips validation, and the call returns the posts instead of an error. -/
theorem claim_C8_counterexample :
    "" ∉ VALID_SORT_FIELDS
    ∧ get_all_posts (some "") "asc" [] = (.ok [], [])
    ∧ ∀ msg, get_all_posts (some "") "asc" [] ≠ (.error msg, []) := by
  refine ⟨by decide, by decide, ?_⟩
  have h2 : get_all_posts (some "") "asc" [] = (.ok [], []) := by decide
  intro msg h
  rw [h2] at h
  simp at h

/-- C8 amended: for a non-empty sort field in the valid set and a direction in
`{asc, desc}`, `get_all_posts` returns under `posts` a permutation of the
stored posts ordered by that field (ascending or descending, dates formatted
afterwards) and leaves storage unchanged; a non-empty sort field outside the
set, or an invalid direction, yields an `error` dictionary with storage
unchanged. An empty-string sort field is instead treated as absent. -/
theorem claim_C8 (posts : List Post) :
    (∀ f, f ∈ VALID_SORT_FIELDS → ∀ dir, dir ∈ VALID_DIRECTIONS →
      (∀ p ∈ posts, wfPost p = true ∧ wfFieldVal f p = true) →
      ∃ l : List Post, get_all_posts (some f) dir posts = (.ok (l.map formatPost), posts)
        ∧ l.Perm posts
        ∧ (dir = "asc" →
            l.Pairwise (fun a b => strLe (sortKey a f) (sortKey b f) = true))
        ∧ (dir = "desc" →
            l.Pairwise (fun a b => strLe (sortKey b f) (sortKey a f) = true)))
    ∧ (∀ f, f ∉ VALID_SORT_FIELDS → f ≠ "" → ∀ dir,
        ∃ msg, get_all_posts (some f) dir posts = (.error msg, posts))
    ∧ (∀ dir, dir ∉ VALID_DIRECTIONS →
        ∃ msg, get_all_posts none dir posts = (.error msg, posts)
          ∧ ∀ f, f ∈ VALID_SORT_FIELDS →
              get_all_posts (some f) dir posts = (.error msg, posts)) := by
  refine ⟨?_, ?_, ?_⟩
  · intro f hf dir hdir _hwf
    have hfe : f ≠ "" := by rintro rfl; revert hf; decide
    have hst : strTruthy (some f) = true := by
      have : f.isEmpty = false := by
        cases hfi : f.isEmpty with
        | false => rfl
        | true => exact absurd ((String.isEmpty_iff f).mp hfi) hfe
      simp [strTruthy, this]
    have hcond1 : ¬(strTruthy (some f) ∧ (some f).getD "" ∉ VALID_SORT_FIELDS) :=
      fun h => h.2 hf
    have hcond2 : ¬dir ∉ VALID_DIRECTIONS := fun h => h hdir
    have hga : get_all_posts (some f) dir posts
        = (.ok ((sortPosts f dir posts).map formatPost), posts) := by
      unfold get_all_posts
      rw [if_neg hcond1, if_neg hcond2]
      simp [hst]
    have hperm : (sortPosts f dir posts).Perm posts := by
      unfold sortPosts
      split <;> exact List.mergeSort_perm posts _
    refine ⟨sortPosts f dir posts, hga, hperm, ?_, ?_⟩
    · rintro rfl
      have hs := @List.sorted_mergeSort _
        (fun a b => strLe (sortKey a f) (sortKey b f))
        (fun a b c hab hbc => strLe_trans hab hbc)
        (fun a b => strLe_total _ _) posts
      have hsp : sortPosts f "asc" posts
          = posts.mergeSort (fun a b => strLe (sortKey a f) (sortKey b f)) := by
        simp [sortPosts]
      rw [hsp]
      exact hs
    · rintro rfl
      have hs := @List.sorted_mergeSort _
        (fun a b => strLe (sortKey b f) (sortKey a f))
        (fun a b c hab hbc => strLe_trans hbc hab)
        (fun a b => strLe_total _ _) posts
      have hsp : sortPosts f "desc" posts
          = posts.mergeSort (fun a b => strLe (sortKey b f) (sortKey a f)) := by
        simp [sortPosts]
      rw [hsp]
      exact hs
  · intro f hnf hfe dir
    have hst : strTruthy (some f) = true := by
      have : f.isEmpty = false := by
        cases hfi : f.isEmpty with
        | false => rfl
        | true => exact absurd ((String.isEmpty_iff f).mp hfi) hfe
      simp [strTruthy, this]
    have hcond1 : strTruthy (some f) = true ∧ (some f).getD "" ∉ VALID_SORT_FIELDS :=
      ⟨hst, hnf⟩
    refine ⟨"Invalid sort field [" ++ f ++ "]. Valid options are: "
      ++ String.intercalate ", " VALID_SORT_FIELDS, ?_⟩
    unfold get_all_posts
    rw [if_pos hcond1]
    rfl
  · intro dir hndir
    have hcn : ¬(strTruthy none = true ∧ (none : Option String).getD "" ∉ VALID_SORT_FIELDS) := by
      intro h
      exact absurd h.1 (by decide)
    refine ⟨"Invalid sort direction [" ++ dir ++ "]. Valid options are: "
      ++ String.intercalate ", " VALID_DIRECTIONS, ?_, ?_⟩
    · unfold get_all_posts
      rw [if_neg hcn, if_pos hndir]
    · intro f hf
      have hc1 : ¬(strTruthy (some f) = true ∧ (some f).getD "" ∉ VALID_SORT_FIELDS) :=
        fun h => h.2 hf
      unfold get_all_posts
      rw [if_neg hc1, if_pos hndir]

/-- Witness for C8 (amended): sorting two posts by title ascending on a
well-formed store. -/
theorem claim_C8_witness :
    ∃ l : List Post, get_all_posts (some "title") "asc"
        [[("id", JVal.vInt 1), ("title", JVal.vStr "beta"),
          ("content", JVal.vStr "x"), ("author", JVal.vStr "a"),
          ("created", JVal.vStr "2024-01-01T00:00:00+00:00")],
         [("id", JVal.vInt 2), ("title", JVal.vStr "alpha"),
          ("content", JVal.vStr "y"), ("author", JVal.vStr "b"),
          ("created", JVal.vStr "2024-02-01T00:00:00+00:00")]]
      = (.ok (l.map formatPost),
        [[("id", JVal.vInt 1), ("title", JVal.vStr "beta"),
          ("content", JVal.vStr "x"), ("author", JVal.vStr "a"),
          ("created", JVal.vStr "2024-01-01T00:00:00+00:00")],
         [("id", JVal.vInt 2), ("title", JVal.vStr "alpha"),
          ("content", JVal.vStr "y"), ("author", JVal.vStr "b"),
          ("created", JVal.vStr "2024-02-01T00:00:00+00:00")]])
      ∧ l.Perm [[("id", JVal.vInt 1), ("title", JVal.vStr "beta"),
          ("content", JVal.vStr "x"), ("author", JVal.vStr "a"),
          ("created", JVal.vStr "2024-01-01T00:00:00+00:00")],
         [("id", JVal.vInt 2), ("title", JVal.vStr "alpha"),
          ("content", JVal.vStr "y"), ("author", JVal.vStr "b"),
          ("created", JVal.vStr "2024-02-01T00:00:00+00:00")]]
      ∧ ("asc" = "asc" →
          l.Pairwise (fun a b => strLe (sortKey a "title") (sortKey b "title") = true))
      ∧ ("asc" = "desc" →
          l.Pairwise (fun a b => strLe (sortKey b "title") (sortKey a "title") = true)) :=
  (claim_C8 [[("id", JVal.vInt 1), ("title", JVal.vStr "beta"),
      ("content", JVal.vStr "x"), ("author", JVal.vStr "a"),
      ("created", JVal.vStr "2024-01-01T00:00:00+00:00")],
     [("id", JVal.vInt 2), ("title", JVal.vStr "alpha"),
      ("content", JVal.vStr "y"), ("author", JVal.vStr "b"),
      ("created", JVal.vStr "2024-02-01T00:00:00+00:00")]]).1
    "title" (by decide) "asc" (by decide) (by decide)

end Masterblog
